import Mathlib

/-!
Shallow embedding of the pyuxn virtual machine (src/pyuxn.py) and proofs
about its instruction semantics.

Modelling conventions:
* Python `bytearray`s (`mem`, `dev`, the two stacks) are `List Nat`, kept in
  the same order as the Python object (index 0 first, stack top last).
* Python `int` values that can be negative (the program counter, signed
  offsets) are `Int`; byte and short values read from a bytearray are `Nat`.
* Fallible Python operations (indexing, `struct.unpack_from`, `bytearray.pop`,
  the capacity assert in `FixedSizeStack.push`) return `Except`.  Because
  Python mutates objects in place, an exception leaves all mutations made so
  far visible to the caller; the error therefore carries the machine state at
  the moment of the raise.
* `exit(...)` inside the System device and the `raise` statements are mapped
  to dedicated `PyErr` constructors.
-/

set_option maxRecDepth 4000

deriving instance DecidableEq for Except

namespace PyUxn

/-- Outcomes that abort a Python operation: `IndexError`, `struct.error`,
`AssertionError` (from `FixedSizeStack.push`), `ValueError`, `KeyError`
(from `OPS[op_code]`), `TypeError` (a call with a missing argument),
`NotImplementedError`, and `SystemExit` raised by `exit(code)`. -/
inductive PyErr where
  | indexError : PyErr
  | structError : PyErr
  | assertError : PyErr
  | valueError : PyErr
  | keyError : Nat → PyErr
  | typeError : PyErr
  | notImplemented : PyErr
  | systemExit : Nat → PyErr
  deriving DecidableEq, Repr

/-- Machine state of the `Uxn` class: program counter, main memory, device
page, working stack, return stack, plus the bytes written to stdout by the
Console device (`sys.stdout.write` in `console_device`). -/
structure Uxn where
  pc : Int
  mem : List Nat
  dev : List Nat
  ws : List Nat
  rs : List Nat
  out : List Nat
  deriving DecidableEq, Repr

/-- Freshly constructed VM: `Uxn.__init__` zeroes a 64 KiB memory, a 256-byte
device page and two empty stacks, with `pc = 0`. -/
def Uxn.init : Uxn :=
  { pc := 0
    mem := List.replicate 0x10000 0
    dev := List.replicate 0x100 0
    ws := []
    rs := []
    out := [] }

/-- State-and-exception monad for the interpreter: a Python exception carries
the (partially mutated) state at the raise point. -/
def M (α : Type) : Type := Uxn → Except (PyErr × Uxn) (α × Uxn)

instance : Monad M where
  pure a := fun u => .ok (a, u)
  bind m f := fun u =>
    match m u with
    | .error e => .error e
    | .ok (a, u1) => f a u1

def throwM {α : Type} (e : PyErr) : M α := fun u => .error (e, u)

def getU : M Uxn := fun u => .ok (u, u)

def modU (f : Uxn → Uxn) : M Unit := fun u => .ok ((), f u)

def liftE {α : Type} (e : Except PyErr α) : M α := fun u =>
  match e with
  | .ok a => .ok (a, u)
  | .error er => .error (er, u)

/-- Selector for the two `FixedSizeStack` objects. Python handlers bind
`s = u.rs if moder else u.ws` and mutate through the reference. -/
inductive StackSel where
  | wsSel : StackSel
  | rsSel : StackSel
  deriving DecidableEq, Repr

def stkOf : StackSel → Uxn → List Nat
  | .wsSel, u => u.ws
  | .rsSel, u => u.rs

def setStk : StackSel → List Nat → Uxn → Uxn
  | .wsSel, l, u => { u with ws := l }
  | .rsSel, l, u => { u with rs := l }

/-- Primary stack: `u.rs if moder else u.ws` (Python truthiness on the int
mode bit). -/
def primarySel (moder : Nat) : StackSel :=
  if moder ≠ 0 then .rsSel else .wsSel

/-- Other stack, as bound by `s1, s2 = (u.rs, u.ws) if moder else (u.ws, u.rs)`
in `op_jsr` and `op_sth`. -/
def otherSel (moder : Nat) : StackSel :=
  if moder ≠ 0 then .wsSel else .rsSel

/-- Python `ba[i]` on a bytearray: a negative index counts from the end, an
index outside `[-len, len)` raises `IndexError`. -/
def pyIndex (ba : List Nat) (i : Int) : Except PyErr Nat :=
  let j : Int := if i < 0 then i + ba.length else i
  if 0 ≤ j ∧ j < (ba.length : Int) then .ok (ba.getD j.toNat 0)
  else .error .indexError

/-- Python `ba[i] = v` on a bytearray: index as in `pyIndex`, and the stored
value must be a byte in `[0, 256)` or a `ValueError` is raised. -/
def pyIndexSet (ba : List Nat) (i : Int) (v : Int) : Except PyErr (List Nat) :=
  let j : Int := if i < 0 then i + ba.length else i
  if 0 ≤ j ∧ j < (ba.length : Int) then
    if 0 ≤ v ∧ v < 256 then .ok (ba.set j.toNat v.toNat)
    else .error .valueError
  else .error .indexError

/-- Normalize-and-clamp of one slice bound, as Python slicing does. -/
def pyClamp (len : Nat) (i : Int) : Nat :=
  let j : Int := if i < 0 then i + len else i
  if j < 0 then 0 else min j.toNat len

/-- Python slice read `ba[a:b]` (step 1): clamped bounds, empty when the
effective stop is at or before the effective start, never an error. -/
def pyGetSlice (ba : List Nat) (a b : Int) : List Nat :=
  (ba.take (pyClamp ba.length b)).drop (pyClamp ba.length a)

/-- Python slice assignment `ba[a:b] = repl` (step 1): the clamped range
`[a', max a' b')` is removed and `repl` is spliced in at `a'`; the length of
the bytearray changes when `repl` is not the same length as the removed
range. -/
def pySetSlice (ba : List Nat) (a b : Int) (repl : List Nat) : List Nat :=
  let a1 := pyClamp ba.length a
  let b1 := pyClamp ba.length b
  ba.take a1 ++ repl ++ ba.drop (max a1 b1)

/-- Fragment `struct.unpack_from(">H", ba, off)[0]`: big-endian unsigned
short. A negative offset is first shifted by `len`, then the two bytes must
lie inside the buffer or `struct.error` is raised. -/
def ushort_peek (ba : List Nat) (off : Int) : Except PyErr Nat :=
  let j : Int := if off < 0 then off + ba.length else off
  if 0 ≤ j ∧ j + 2 ≤ (ba.length : Int) then
    .ok (ba.getD j.toNat 0 * 256 + ba.getD (j.toNat + 1) 0)
  else .error .structError

/-- Fragment `struct.unpack_from(">h", ba, off)[0]`: big-endian signed
short, same buffer handling as `ushort_peek`. -/
def sshort_peek (ba : List Nat) (off : Int) : Except PyErr Int :=
  let j : Int := if off < 0 then off + ba.length else off
  if 0 ≤ j ∧ j + 2 ≤ (ba.length : Int) then
    let v := ba.getD j.toNat 0 * 256 + ba.getD (j.toNat + 1) 0
    .ok (if v < 0x8000 then (v : Int) else (v : Int) - 0x10000)
  else .error .structError

/-- Function `speek(s, offset)`: `struct.unpack_from("@b", s, offset)[0]`, a
signed byte read from the stack buffer. -/
def speek (ba : List Nat) (off : Int) : Except PyErr Int :=
  let j : Int := if off < 0 then off + ba.length else off
  if 0 ≤ j ∧ j + 1 ≤ (ba.length : Int) then
    let b := ba.getD j.toNat 0
    .ok (if b < 0x80 then (b : Int) else (b : Int) - 0x100)
  else .error .structError

/-- Method call `s.pop()` on a bytearray: removes and returns the last byte,
raising `IndexError` on an empty buffer. -/
def stackPop (sel : StackSel) : M Nat := fun u =>
  match (stkOf sel u).getLast? with
  | none => .error (.indexError, u)
  | some b => .ok (b, setStk sel (stkOf sel u).dropLast u)

/-- Method `FixedSizeStack.push`: `assert len(self) < self.capacity` (both
stacks are constructed with capacity `0x100`), then `bytearray.append`
which range-checks the byte. -/
def stackPush (sel : StackSel) (b : Nat) : M Unit := fun u =>
  if (stkOf sel u).length < 0x100 then
    if b < 256 then .ok ((), setStk sel (stkOf sel u ++ [b]) u)
    else .error (.valueError, u)
  else .error (.assertError, u)

/-- Method call `s.extend(ints)` on a bytearray with a tuple of Python ints:
every element is range-checked (building a temporary, so nothing is appended
on failure) and there is no capacity check at all. -/
def stackExtendInts (sel : StackSel) (l : List Int) : M Unit := fun u =>
  if l.all (fun b => decide (0 ≤ b ∧ b < 256)) then
    .ok ((), setStk sel (stkOf sel u ++ l.map Int.toNat) u)
  else .error (.valueError, u)

/-- Method call `s.extend(lit)` with a bytearray slice (`op_lit`): plain
append of already-valid bytes, with no capacity check. -/
def stackExtendBytes (sel : StackSel) (l : List Nat) : M Unit := fun u =>
  .ok ((), setStk sel (stkOf sel u ++ l) u)

/-- Function `spop(s)`: signed-byte read at `len(s) - 1` followed by
`s.pop()`. -/
def spop (sel : StackSel) : M Int := fun u =>
  match speek (stkOf sel u) (((stkOf sel u).length : Int) - 1) with
  | .error e => .error (e, u)
  | .ok r => .ok (r, setStk sel (stkOf sel u).dropLast u)

/-- Function `ushort_pop(s)`: big-endian short read at `len(s) - 2` followed
by two `s.pop()` calls. -/
def ushort_pop (sel : StackSel) : M Nat := fun u =>
  match ushort_peek (stkOf sel u) (((stkOf sel u).length : Int) - 2) with
  | .error e => .error (e, u)
  | .ok r => .ok (r, setStk sel (stkOf sel u).dropLast.dropLast u)

/-- Read `u.mem[i]` through the monad. -/
def memGet (i : Int) : M Nat := fun u =>
  match pyIndex u.mem i with
  | .ok b => .ok (b, u)
  | .error e => .error (e, u)

/-- Write `u.mem[i] = v` through the monad. -/
def memSet (i : Int) (v : Int) : M Unit := fun u =>
  match pyIndexSet u.mem i v with
  | .ok m => .ok ((), { u with mem := m })
  | .error e => .error (e, u)

/-- Python `(x & 0xff00) >> 8` on a possibly negative int `x`, written with
`emod`: the two operations together select bits 8..15 of the two's
complement value. -/
def hiByte (x : Int) : Nat := (x.emod 0x10000).toNat / 0x100

/-- Python `x & 0xff` on a possibly negative int `x`. -/
def loByte (x : Int) : Nat := (x.emod 0x100).toNat

def SYSTEM_DEVICE : Nat := 0x00
def SYSTEM_STATE_PORT : Nat := 0xf
def CONSOLE_DEVICE : Nat := 0x10
def CONSOLE_WRITE_PORT : Nat := 0x8

/-- Function `system_device(port, value)`: port `0x0F` with a non-zero value
calls `exit(value & 0x7f)`; any other port raises `ValueError`. A zero
value on port `0x0F` does nothing. -/
def system_device (port value : Nat) : M Unit :=
  if port = SYSTEM_STATE_PORT then
    if value ≠ 0 then throwM (.systemExit (value &&& 0x7f)) else pure ()
  else throwM .valueError

/-- Function `console_device(port, value)`: port `0x8` writes the byte to
stdout; any other port raises `ValueError`. -/
def console_device (port value : Nat) : M Unit :=
  if port = CONSOLE_WRITE_PORT then modU (fun u => { u with out := u.out ++ [value] })
  else throwM .valueError

/-- Handler `op_jci`: pop a byte from the working stack; if non-zero add the
signed short at `mem[pc]` to `pc`; then advance `pc` by 2. -/
def op_jci : M Unit := do
  let c ← stackPop .wsSel
  if c ≠ 0 then do
    let u ← getU
    let off ← liftE (sshort_peek u.mem u.pc)
    modU (fun u => { u with pc := u.pc + off })
  modU (fun u => { u with pc := u.pc + 2 })

/-- Handler `op_jmi`: `pc += sshort_peek(mem, pc) + 2`. -/
def op_jmi : M Unit := do
  let u ← getU
  let off ← liftE (sshort_peek u.mem u.pc)
  modU (fun u => { u with pc := u.pc + off + 2 })

/-- Handler `op_jsi`: remember `pc`, advance by 2, push the new `pc` onto
the return stack big-endian (guarded pushes), then add the signed short read
at the remembered position. -/
def op_jsi : M Unit := do
  let u0 ← getU
  let offsetPtr := u0.pc
  modU (fun u => { u with pc := u.pc + 2 })
  let u1 ← getU
  stackPush .rsSel (hiByte u1.pc)
  let u2 ← getU
  stackPush .rsSel (loByte u2.pc)
  let u3 ← getU
  let off ← liftE (sshort_peek u3.mem offsetPtr)
  modU (fun u => { u with pc := u.pc + off })

/-- Handler `op_lit`: extend the selected stack with the memory slice
`mem[pc : pc+1+mode2]` (an unguarded `bytearray.extend`), then set
`pc` past the literal. -/
def op_lit (mode2 moder _modek : Nat) : M Bool := do
  let sel := if moder ≠ 0 then StackSel.rsSel else StackSel.wsSel
  let u ← getU
  let pc2 := u.pc + 1 + mode2
  let lit := pyGetSlice u.mem u.pc pc2
  stackExtendBytes sel lit
  modU (fun u => { u with pc := pc2 })
  pure false

/-- Handler `op_imm`: the `match` in the source. `(0,0,0)` returns 1 (BRK,
the only truthy handler result); the other mode combinations dispatch to
the immediate jumps or to LIT and fall through returning `None`. -/
def op_imm (mode2 moder modek : Nat) : M Bool :=
  if mode2 = 0 ∧ moder = 0 ∧ modek = 0 then pure true
  else if mode2 = 1 ∧ moder = 0 ∧ modek = 0 then do op_jci; pure false
  else if mode2 = 0 ∧ moder = 1 ∧ modek = 0 then do op_jmi; pure false
  else if mode2 = 1 ∧ moder = 1 ∧ modek = 0 then do op_jsi; pure false
  else if modek = 1 then do
    let _ ← op_lit mode2 moder modek
    pure false
  else pure false

/-- Handler `op_inc`: pops and re-pushes the incremented top operand. The
source ignores `modek` entirely, consuming the operand even in keep mode. -/
def op_inc (mode2 moder _modek : Nat) : M Bool := do
  let sel := primarySel moder
  if mode2 ≠ 0 then do
    let x0 ← ushort_pop sel
    let x := (x0 + 1) &&& 0xffff
    stackPush sel (x >>> 8)
    stackPush sel (x &&& 0xff)
    pure false
  else do
    let b ← stackPop sel
    stackPush sel ((b + 1) &&& 0xff)
    pure false

/-- Handler `op_pop`: drops one byte (two if `mode2`); `modek` is ignored by
the source. -/
def op_pop (_mode2 moder _modek : Nat) : M Bool := do
  let sel := primarySel moder
  let _ ← stackPop sel
  if _mode2 ≠ 0 then do
    let _ ← stackPop sel
    pure ()
  pure false

/-- Shared read of the top operand, as the `top = ...` lines of `op_nip`,
`op_dup` and `op_sth`: peek at `len-2` (short) or `s[-1]` (byte) when
`modek`, otherwise `ushort_pop` or `s.pop()`. -/
def readTop (sel : StackSel) (mode2 modek : Nat) : M Nat := do
  if modek ≠ 0 then do
    let u ← getU
    let s := stkOf sel u
    if mode2 ≠ 0 then liftE (ushort_peek s ((s.length : Int) - 2))
    else liftE (pyIndex s (-1))
  else
    if mode2 ≠ 0 then ushort_pop sel else stackPop sel

/-- Shared read of the two topmost operands `(top, bot)`, as the
`top = ...; bot = ...` lines of `op_swp`, `op_ovr`, `op_equ`, `op_neq`,
`op_gth`, `op_lth`, `op_add`, `op_sub`, `op_mul`, `op_div`, `op_and`,
`op_ora` and `op_eor`: peeks at `len-2` and `len-4` (shorts) or `s[-1]` and
`s[-2]` (bytes) when `modek`, otherwise two pops. -/
def readPair (sel : StackSel) (mode2 modek : Nat) : M (Nat × Nat) := do
  if modek ≠ 0 then do
    let u ← getU
    let s := stkOf sel u
    if mode2 ≠ 0 then do
      let t ← liftE (ushort_peek s ((s.length : Int) - 2))
      let n ← liftE (ushort_peek s ((s.length : Int) - 4))
      pure (t, n)
    else do
      let t ← liftE (pyIndex s (-1))
      let n ← liftE (pyIndex s (-2))
      pure (t, n)
  else
    if mode2 ≠ 0 then do
      let t ← ushort_pop sel
      let n ← ushort_pop sel
      pure (t, n)
    else do
      let t ← stackPop sel
      let n ← stackPop sel
      pure (t, n)

/-- Push a value back in the width selected by `mode2`, as the repeated
`if mode2: s.push(v >> 8); s.push(v & 0xff)` lines of the handlers. -/
def pushWide (sel : StackSel) (mode2 : Nat) (v : Nat) : M Unit := do
  if mode2 ≠ 0 then stackPush sel (v >>> 8)
  stackPush sel (v &&& 0xff)

/-- Handler `op_nip`: read the top operand, pop the one beneath it when not
in keep mode, push the top operand back. -/
def op_nip (mode2 moder modek : Nat) : M Bool := do
  let sel := primarySel moder
  let top ← readTop sel mode2 modek
  if modek = 0 then do
    let _ ← stackPop sel
    if mode2 ≠ 0 then do
      let _ ← stackPop sel
      pure ()
  pushWide sel mode2 top
  pure false

/-- Handler `op_swp`: read `(top, bot)` and push `top` then `bot`. -/
def op_swp (mode2 moder modek : Nat) : M Bool := do
  let sel := primarySel moder
  let (top, bot) ← readPair sel mode2 modek
  pushWide sel mode2 top
  pushWide sel mode2 bot
  pure false

/-- Handler `op_rot`: read `(top, mid, bot)` and push `mid`, `top`, `bot`. -/
def op_rot (mode2 moder modek : Nat) : M Bool := do
  let sel := primarySel moder
  let (top, mid, bot) ←
    if modek ≠ 0 then do
      let u ← getU
      let s := stkOf sel u
      if mode2 ≠ 0 then do
        let t ← liftE (ushort_peek s ((s.length : Int) - 2))
        let m ← liftE (ushort_peek s ((s.length : Int) - 4))
        let b ← liftE (ushort_peek s ((s.length : Int) - 6))
        pure (t, m, b)
      else do
        let t ← liftE (pyIndex s (-1))
        let m ← liftE (pyIndex s (-2))
        let b ← liftE (pyIndex s (-3))
        pure (t, m, b)
    else
      if mode2 ≠ 0 then do
        let t ← ushort_pop sel
        let m ← ushort_pop sel
        let b ← ushort_pop sel
        pure (t, m, b)
      else do
        let t ← stackPop sel
        let m ← stackPop sel
        let b ← stackPop sel
        pure (t, m, b)
  pushWide sel mode2 mid
  pushWide sel mode2 top
  pushWide sel mode2 bot
  pure false

/-- Handler `op_dup`: read the top operand and push it twice. -/
def op_dup (mode2 moder modek : Nat) : M Bool := do
  let sel := primarySel moder
  let top ← readTop sel mode2 modek
  pushWide sel mode2 top
  pushWide sel mode2 top
  pure false

/-- Handler `op_ovr`: read `(top, bot)` and push `bot`, `top`, `bot`. -/
def op_ovr (mode2 moder modek : Nat) : M Bool := do
  let sel := primarySel moder
  let (top, bot) ← readPair sel mode2 modek
  pushWide sel mode2 bot
  pushWide sel mode2 top
  pushWide sel mode2 bot
  pure false

/-- Handler `op_equ`: push `int(bot == top)` (always one byte). -/
def op_equ (mode2 moder modek : Nat) : M Bool := do
  let sel := primarySel moder
  let (top, bot) ← readPair sel mode2 modek
  stackPush sel (if bot = top then 1 else 0)
  pure false

/-- Handler `op_neq`: push `int(bot != top)` (always one byte). -/
def op_neq (mode2 moder modek : Nat) : M Bool := do
  let sel := primarySel moder
  let (top, bot) ← readPair sel mode2 modek
  stackPush sel (if bot ≠ top then 1 else 0)
  pure false

/-- Handler `op_gth`: in every branch the source compares top-read-first
against next-read-second (`T < N`, that is `N > T`) and pushes the byte
`int(res)`. -/
def op_gth (mode2 moder modek : Nat) : M Bool := do
  let sel := primarySel moder
  let (top, bot) ← readPair sel mode2 modek
  stackPush sel (if top < bot then 1 else 0)
  pure false

/-- Handler `op_lth`: in every branch the source compares `T > N`, that is
`N < T`, and pushes the byte `int(res)`. -/
def op_lth (mode2 moder modek : Nat) : M Bool := do
  let sel := primarySel moder
  let (top, bot) ← readPair sel mode2 modek
  stackPush sel (if bot < top then 1 else 0)
  pure false

/-- Handler `op_jmp`: short mode sets `pc = lo + (hi << 8)` from two pops;
byte mode reads a signed byte (peek then pop) and adds it to `pc`. `modek`
is ignored by the source. -/
def op_jmp (mode2 moder _modek : Nat) : M Bool := do
  let sel := primarySel moder
  if mode2 ≠ 0 then do
    let lo ← stackPop sel
    let hi ← stackPop sel
    modU (fun u => { u with pc := ((lo + (hi <<< 8) : Nat) : Int) })
    pure false
  else do
    let u ← getU
    let s := stkOf sel u
    let top ← liftE (speek s ((s.length : Int) - 1))
    let _ ← stackPop sel
    modU (fun u => { u with pc := u.pc + top })
    pure false

/-- Handler `op_jcn`: read the target address (short, or `pc` plus a signed
byte), then the condition byte; jump when the condition is non-zero. -/
def op_jcn (mode2 moder modek : Nat) : M Bool := do
  let sel := primarySel moder
  if modek ≠ 0 then do
    let u ← getU
    let s := stkOf sel u
    let addr ←
      if mode2 ≠ 0 then do
        let a ← liftE (ushort_peek s ((s.length : Int) - 2))
        pure (a : Int)
      else do
        let off ← liftE (speek s ((s.length : Int) - 1))
        pure (u.pc + off)
    let cond ← liftE (pyIndex s (if mode2 ≠ 0 then -3 else -2))
    if cond ≠ 0 then modU (fun u => { u with pc := addr })
    pure false
  else do
    let addr ←
      if mode2 ≠ 0 then do
        let a ← ushort_pop sel
        pure (a : Int)
      else do
        let u ← getU
        let off ← spop sel
        pure (u.pc + off)
    let cond ← stackPop sel
    if cond ≠ 0 then modU (fun u => { u with pc := addr })
    pure false

/-- Handler `op_jsr`: extend the other stack with `(pc >> 8, pc & 255)`
first; in keep mode the source then calls `ushort_peek(s1)` or `speek(s1)`
with the offset argument missing, a `TypeError`; otherwise pop the target
and set `pc`. -/
def op_jsr (mode2 moder modek : Nat) : M Bool := do
  let s1 := primarySel moder
  let s2 := otherSel moder
  let u ← getU
  stackExtendInts s2 [u.pc.fdiv 256, u.pc.emod 256]
  let addr ←
    if modek ≠ 0 then (throwM .typeError : M Int)
    else if mode2 ≠ 0 then do
      let a ← ushort_pop s1
      pure (a : Int)
    else do
      let u1 ← getU
      let off ← spop s1
      pure (u1.pc + off)
  modU (fun u => { u with pc := addr })
  pure false

/-- Handler `op_sth`: read the top operand from the primary stack and push
it (width per `mode2`, with `(val & 0xff00) >> 8` for the high byte) onto
the other stack. -/
def op_sth (mode2 moder modek : Nat) : M Bool := do
  let s1 := primarySel moder
  let s2 := otherSel moder
  let val ← readTop s1 mode2 modek
  if mode2 ≠ 0 then stackPush s2 ((val &&& 0xff00) >>> 8)
  stackPush s2 (val &&& 0xff)
  pure false

/-- Handler `op_ldz`: zero-page load; the address byte is `s[-1]` in keep
mode, otherwise popped; pushes `mem[addr]` and, if `mode2`, `mem[addr+1]`. -/
def op_ldz (mode2 moder modek : Nat) : M Bool := do
  let sel := primarySel moder
  let addr ←
    if modek ≠ 0 then do
      let u ← getU
      liftE (pyIndex (stkOf sel u) (-1))
    else stackPop sel
  let b ← memGet (addr : Int)
  stackPush sel b
  if mode2 ≠ 0 then do
    let b2 ← memGet ((addr : Int) + 1)
    stackPush sel b2
  pure false

/-- Handler `op_stz`: zero-page store; the source writes the low byte to
`mem[addr + mode2]` and, if `mode2`, the high byte to `mem[addr]`. In keep
mode the value is peeked at `len-4` (short) or `s[-2]` (byte). -/
def op_stz (mode2 moder modek : Nat) : M Bool := do
  let sel := primarySel moder
  let (addr, val) ←
    if modek ≠ 0 then do
      let u ← getU
      let s := stkOf sel u
      let a ← liftE (pyIndex s (-1))
      let v ←
        if mode2 ≠ 0 then liftE (ushort_peek s ((s.length : Int) - 4))
        else liftE (pyIndex s (-2))
      pure (a, v)
    else do
      let a ← stackPop sel
      let v ← if mode2 ≠ 0 then ushort_pop sel else stackPop sel
      pure (a, v)
  memSet ((addr : Int) + mode2) ((val &&& 0xff : Nat) : Int)
  if mode2 ≠ 0 then memSet (addr : Int) (((val >>> 8) &&& 0xff : Nat) : Int)
  pure false

/-- Handler `op_ldr`: relative load at `pc + off` (signed byte offset). -/
def op_ldr (mode2 moder modek : Nat) : M Bool := do
  let sel := primarySel moder
  let off ←
    if modek ≠ 0 then do
      let u ← getU
      let s := stkOf sel u
      liftE (speek s ((s.length : Int) - 1))
    else spop sel
  let u ← getU
  let b ← memGet (u.pc + off)
  stackPush sel b
  if mode2 ≠ 0 then do
    let u1 ← getU
    let b2 ← memGet (u1.pc + off + 1)
    stackPush sel b2
  pure false

/-- Handler `op_str`: relative store at `pc + off + mode2` (low byte) and
`pc + off` (high byte when `mode2`). -/
def op_str (mode2 moder modek : Nat) : M Bool := do
  let sel := primarySel moder
  let (off, val) ←
    if modek ≠ 0 then do
      let u ← getU
      let s := stkOf sel u
      let o ← liftE (speek s ((s.length : Int) - 1))
      let v ←
        if mode2 ≠ 0 then liftE (ushort_peek s ((s.length : Int) - 4))
        else liftE (pyIndex s (-2))
      pure (o, v)
    else do
      let o ← spop sel
      let v ← if mode2 ≠ 0 then ushort_pop sel else stackPop sel
      pure (o, v)
  let u ← getU
  memSet (u.pc + off + mode2) ((val &&& 0xff : Nat) : Int)
  if mode2 ≠ 0 then do
    let u1 ← getU
    memSet (u1.pc + off) (((val >>> 8) &&& 0xff : Nat) : Int)
  pure false

/-- Handler `op_lda`: absolute load; the address is `s[-1] + (s[-2] << 8)`
in keep mode, `s.pop() + (s.pop() << 8)` otherwise, with no masking; pushes
`mem[addr]` and, if `mode2`, `mem[addr+1]`. -/
def op_lda (mode2 moder modek : Nat) : M Bool := do
  let sel := primarySel moder
  let addr ←
    if modek ≠ 0 then do
      let u ← getU
      let s := stkOf sel u
      let a ← liftE (pyIndex s (-1))
      let b ← liftE (pyIndex s (-2))
      pure (a + (b <<< 8))
    else do
      let a ← stackPop sel
      let b ← stackPop sel
      pure (a + (b <<< 8))
  let v ← memGet (addr : Int)
  stackPush sel v
  if mode2 ≠ 0 then do
    let v2 ← memGet ((addr : Int) + 1)
    stackPush sel v2
  pure false

/-- Handler `op_sta`: absolute store; `modek` is ignored by the source.
Pops the short address, then stores `s.pop()` at `addr + mode2` and, if
`mode2`, another `s.pop()` at `addr`. -/
def op_sta (mode2 moder _modek : Nat) : M Bool := do
  let sel := primarySel moder
  let addr ← ushort_pop sel
  let v ← stackPop sel
  memSet ((addr : Int) + mode2) ((v : Nat) : Int)
  if mode2 ≠ 0 then do
    let v2 ← stackPop sel
    memSet (addr : Int) ((v2 : Nat) : Int)
  pure false

/-- Handler `op_deo`: pops the device/port byte and dispatches on the device
nibble; System and Console get the popped value, anything else raises
`NotImplementedError`. The source never writes to the device page. -/
def op_deo (_mode2 moder _modek : Nat) : M Bool := do
  let sel := primarySel moder
  let dp ← stackPop sel
  let device := dp &&& 0xf0
  let port := dp &&& 0xf
  if device = SYSTEM_DEVICE then do
    let v ← stackPop sel
    system_device port v
  else if device = CONSOLE_DEVICE then do
    let v ← stackPop sel
    console_device port v
  else throwM .notImplemented
  pure false

/-- Handler `op_add`: `sum = top + bot & 0xffff`, push wide. -/
def op_add (mode2 moder modek : Nat) : M Bool := do
  let sel := primarySel moder
  let (top, bot) ← readPair sel mode2 modek
  let s := (top + bot) &&& 0xffff
  pushWide sel mode2 s
  pure false

/-- Handler `op_sub`: `diff = bot - top & 0xffff`; the Python subtraction
can go negative, and the mask is a two's-complement `emod`. -/
def op_sub (mode2 moder modek : Nat) : M Bool := do
  let sel := primarySel moder
  let (top, bot) ← readPair sel mode2 modek
  let d := (((bot : Int) - (top : Int)).emod 0x10000).toNat
  pushWide sel mode2 d
  pure false

/-- Handler `op_mul`: `bot * top & 0xffff`, push wide. -/
def op_mul (mode2 moder modek : Nat) : M Bool := do
  let sel := primarySel moder
  let (top, bot) ← readPair sel mode2 modek
  let d := (bot * top) &&& 0xffff
  pushWide sel mode2 d
  pure false

/-- Handler `op_div`: `quo = (bot // top) & 0xffff if top else 0`; division
by zero yields 0 with no error. -/
def op_div (mode2 moder modek : Nat) : M Bool := do
  let sel := primarySel moder
  let (top, bot) ← readPair sel mode2 modek
  let quo := if top ≠ 0 then (bot / top) &&& 0xffff else 0
  pushWide sel mode2 quo
  pure false

/-- Handler `op_and`: `bot & top`, push wide. -/
def op_and (mode2 moder modek : Nat) : M Bool := do
  let sel := primarySel moder
  let (top, bot) ← readPair sel mode2 modek
  pushWide sel mode2 (bot &&& top)
  pure false

/-- Handler `op_ora`: `bot | top`, push wide. -/
def op_ora (mode2 moder modek : Nat) : M Bool := do
  let sel := primarySel moder
  let (top, bot) ← readPair sel mode2 modek
  pushWide sel mode2 (bot ||| top)
  pure false

/-- Handler `op_eor`: `bot ^ top`, push wide. -/
def op_eor (mode2 moder modek : Nat) : M Bool := do
  let sel := primarySel moder
  let (top, bot) ← readPair sel mode2 modek
  pushWide sel mode2 (bot ^^^ top)
  pure false

/-- Handler `op_sft`: the shift byte is always `s.pop()` or `s[-1]`; the
value is `ushort_pop`/`s.pop()` when consuming, but in keep mode the source
peeks the short value at `len-4` (not `len-3`). The result is
`(bot >> (top & 0xf)) << ((top & 0xf0) >> 4)`, pushed with explicit byte
masks. -/
def op_sft (mode2 moder modek : Nat) : M Bool := do
  let sel := primarySel moder
  let (top, bot) ←
    if modek ≠ 0 then do
      let u ← getU
      let s := stkOf sel u
      let t ← liftE (pyIndex s (-1))
      let b ←
        if mode2 ≠ 0 then liftE (ushort_peek s ((s.length : Int) - 4))
        else liftE (pyIndex s (-2))
      pure (t, b)
    else do
      let t ← stackPop sel
      let b ← if mode2 ≠ 0 then ushort_pop sel else stackPop sel
      pure (t, b)
  let res := (bot >>> (top &&& 0xf)) <<< ((top &&& 0xf0) >>> 4)
  if mode2 ≠ 0 then stackPush sel ((res >>> 8) &&& 0xff)
  stackPush sel (res &&& 0xff)
  pure false

/-- The `OPS` dictionary: base opcode to handler. Key `0x16` (DEI) is absent
from the source table, so `OPS[0x16]` raises `KeyError`. -/
def OPS : Nat → Option (Nat → Nat → Nat → M Bool)
  | 0x00 => some op_imm
  | 0x01 => some op_inc
  | 0x02 => some op_pop
  | 0x03 => some op_nip
  | 0x04 => some op_swp
  | 0x05 => some op_rot
  | 0x06 => some op_dup
  | 0x07 => some op_ovr
  | 0x08 => some op_equ
  | 0x09 => some op_neq
  | 0x0A => some op_gth
  | 0x0B => some op_lth
  | 0x0C => some op_jmp
  | 0x0D => some op_jcn
  | 0x0E => some op_jsr
  | 0x0F => some op_sth
  | 0x10 => some op_ldz
  | 0x11 => some op_stz
  | 0x12 => some op_ldr
  | 0x13 => some op_str
  | 0x14 => some op_lda
  | 0x15 => some op_sta
  | 0x17 => some op_deo
  | 0x18 => some op_add
  | 0x19 => some op_sub
  | 0x1A => some op_mul
  | 0x1B => some op_div
  | 0x1C => some op_and
  | 0x1D => some op_ora
  | 0x1E => some op_eor
  | 0x1F => some op_sft
  | _ => none

/-- Function `exec_op(u, op_mode_code)`: split the opcode byte, look up the
handler (`KeyError` when absent, before `pc` moves), re-read `mem[pc]` for
the debug log line (an eagerly evaluated f-string), advance `pc` by 1 and
run the handler. The `op_name` computation cannot fail for mode bits in
`{0, 1}`. -/
def exec_op (opByte : Nat) : M Bool := do
  let op_code := opByte &&& 0x1f
  let mode2 := (opByte >>> 5) &&& 1
  let moder := (opByte >>> 6) &&& 1
  let modek := (opByte >>> 7) &&& 1
  match OPS op_code with
  | none => throwM (.keyError op_code)
  | some op => do
    let u ← getU
    let _ ← liftE (pyIndex u.mem u.pc)
    modU (fun u1 => { u1 with pc := u1.pc + 1 })
    op mode2 moder modek

/-- Fetch-and-execute loop of `run_vector`, with explicit fuel; `none` means
the fuel ran out with the machine still running. -/
def run_loop : Nat → Uxn → Except (PyErr × Uxn) (Option Uxn)
  | 0, _ => .ok none
  | fuel + 1, u =>
    match pyIndex u.mem u.pc with
    | .error e => .error (e, u)
    | .ok b =>
      match exec_op b u with
      | .error e => .error e
      | .ok (halt, u1) => if halt then .ok (some u1) else run_loop fuel u1

/-- Function `run_vector(u, pc)`: set `pc` and loop until a handler returns
a truthy value (BRK). -/
def run_vector (fuel : Nat) (u : Uxn) (pc : Int) : Except (PyErr × Uxn) (Option Uxn) :=
  run_loop fuel { u with pc := pc }

/-- Function `load_image(u, prog)`: reject a program longer than
`len(mem) - 0x100`, then perform the slice assignment
`u.mem[0x100 : len(prog)] = prog` exactly as written in the source. -/
def load_image (u : Uxn) (prog : List Nat) : Except PyErr Uxn :=
  if (prog.length : Int) > (u.mem.length : Int) - 0x100 then .error .valueError
  else .ok { u with mem := pySetSlice u.mem 0x100 prog.length prog }

/-! Helper lemmas about the state accessors and the stack primitives. -/

@[simp]
theorem stkOf_setStk_same (sel : StackSel) (l : List Nat) (u : Uxn) :
    stkOf sel (setStk sel l u) = l := by
  cases sel <;> rfl

@[simp]
theorem setStk_setStk (sel : StackSel) (l l2 : List Nat) (u : Uxn) :
    setStk sel l (setStk sel l2 u) = setStk sel l u := by
  cases sel <;> rfl

theorem M_bind_eq {α β : Type} (m : M α) (f : α → M β) (u : Uxn) :
    (m >>= f) u =
      match m u with
      | .error e => .error e
      | .ok (a, u1) => f a u1 := rfl

theorem M_pure_eq {α : Type} (a : α) (u : Uxn) : (pure a : M α) u = .ok (a, u) := rfl

theorem getD_append_length (l : List Nat) (a : Nat) (r : List Nat) :
    (l ++ a :: r).getD l.length 0 = a := by
  rw [List.getD_append_right _ _ _ _ (Nat.le_refl _)]
  simp

theorem stackPop_concat (sel : StackSel) (u : Uxn) (l : List Nat) (a : Nat)
    (h : stkOf sel u = l ++ [a]) :
    stackPop sel u = .ok (a, setStk sel l u) := by
  unfold stackPop
  rw [h]
  simp [List.getLast?_concat, List.dropLast_concat]

theorem stackPop_nil (sel : StackSel) (u : Uxn) (h : stkOf sel u = []) :
    stackPop sel u = .error (.indexError, u) := by
  unfold stackPop
  rw [h]
  rfl

theorem stackPush_ok (sel : StackSel) (u : Uxn) (b : Nat)
    (hcap : (stkOf sel u).length < 256) (hb : b < 256) :
    stackPush sel b u = .ok ((), setStk sel (stkOf sel u ++ [b]) u) := by
  unfold stackPush
  rw [if_pos hcap, if_pos hb]

theorem ushort_peek_last2 (l : List Nat) (a b : Nat) :
    ushort_peek (l ++ [a, b]) (((l ++ [a, b]).length : Int) - 2) = .ok (a * 256 + b) := by
  have hlen : (l ++ [a, b]).length = l.length + 2 := by simp
  rw [hlen]
  have hoff : ((l.length + 2 : Nat) : Int) - 2 = (l.length : Int) := by push_cast; ring
  rw [hoff]
  simp only [ushort_peek, hlen]
  rw [if_neg (by omega : ¬ ((l.length : Int) < 0))]
  rw [if_pos (by constructor <;> omega)]
  rw [show ((l.length : Int)).toNat = l.length by simp]
  have h2 : (l ++ [a, b]).getD l.length 0 = a := getD_append_length l a [b]
  have h3 : (l ++ [a, b]).getD (l.length + 1) 0 = b := by
    have : l ++ [a, b] = (l ++ [a]) ++ [b] := by simp
    rw [this, show l.length + 1 = (l ++ [a]).length by simp]
    simpa using getD_append_length (l ++ [a]) b []
  rw [h2, h3]

theorem ushort_peek_last4 (l : List Nat) (a b c d : Nat) :
    ushort_peek (l ++ [a, b, c, d]) (((l ++ [a, b, c, d]).length : Int) - 4) = .ok (a * 256 + b) := by
  have hlen : (l ++ [a, b, c, d]).length = l.length + 4 := by simp
  rw [hlen]
  have hoff : ((l.length + 4 : Nat) : Int) - 4 = (l.length : Int) := by push_cast; ring
  rw [hoff]
  simp only [ushort_peek, hlen]
  rw [if_neg (by omega : ¬ ((l.length : Int) < 0))]
  rw [if_pos (by constructor <;> omega)]
  rw [show ((l.length : Int)).toNat = l.length by simp]
  rw [getD_append_length l a [b, c, d]]
  have h3 : (l ++ [a, b, c, d]).getD (l.length + 1) 0 = b := by
    rw [show l ++ [a, b, c, d] = (l ++ [a]) ++ [b, c, d] by simp,
      show l.length + 1 = (l ++ [a]).length by simp]
    exact getD_append_length (l ++ [a]) b [c, d]
  rw [h3]

theorem ushort_peek_last4_assoc (l : List Nat) (a b c d : Nat) :
    ushort_peek ((l ++ [a, b]) ++ [c, d]) ((((l ++ [a, b]) ++ [c, d]).length : Int) - 4)
      = .ok (a * 256 + b) := by
  rw [show (l ++ [a, b]) ++ [c, d] = l ++ [a, b, c, d] by simp]
  exact ushort_peek_last4 l a b c d

theorem pyIndex_neg_at (l : List Nat) (a : Nat) (r : List Nat) :
    pyIndex (l ++ a :: r) (-(1 + (r.length : Int))) = .ok a := by
  simp only [pyIndex]
  have hlen : (((l ++ a :: r).length : Nat) : Int) = (l.length : Int) + 1 + r.length := by
    simp
    ring
  rw [if_pos (by omega : (-(1 + (r.length : Int)) < 0))]
  rw [hlen]
  rw [if_pos (by constructor <;> omega)]
  rw [show (-(1 + (r.length : Int)) + ((l.length : Int) + 1 + r.length)).toNat = l.length by omega]
  rw [getD_append_length l a r]

theorem pyIndex_neg1 (l : List Nat) (a : Nat) : pyIndex (l ++ [a]) (-1) = .ok a := by
  have h := pyIndex_neg_at l a []
  norm_num at h
  exact h

theorem pyIndex_neg2 (l : List Nat) (a b : Nat) : pyIndex (l ++ [a, b]) (-2) = .ok a := by
  have h := pyIndex_neg_at l a [b]
  norm_num at h
  exact h

theorem pyIndex_neg1_assoc (l : List Nat) (a b : Nat) :
    pyIndex ((l ++ [a]) ++ [b]) (-1) = .ok b := pyIndex_neg1 (l ++ [a]) b

theorem pyIndex_neg2_assoc (l : List Nat) (a b : Nat) :
    pyIndex ((l ++ [a]) ++ [b]) (-2) = .ok a := by
  rw [show (l ++ [a]) ++ [b] = l ++ [a, b] by simp]
  exact pyIndex_neg2 l a b

theorem dropLast_concat2 (l : List Nat) (a b : Nat) : (l ++ [a, b]).dropLast = l ++ [a] := by
  rw [show l ++ [a, b] = (l ++ [a]) ++ [b] by simp]
  exact List.dropLast_concat

theorem ushort_pop_concat (sel : StackSel) (u : Uxn) (l : List Nat) (a b : Nat)
    (h : stkOf sel u = l ++ [a, b]) :
    ushort_pop sel u = .ok (a * 256 + b, setStk sel l u) := by
  unfold ushort_pop
  rw [h, ushort_peek_last2, dropLast_concat2, List.dropLast_concat]

theorem pushWide_run (sel : StackSel) (mode2 v : Nat) (u : Uxn)
    (hcap : (stkOf sel u).length + 1 < 256) (hv : v < 65536) :
    pushWide sel mode2 v u =
      .ok ((), setStk sel
        (stkOf sel u ++ (if mode2 = 0 then [v &&& 0xff] else [v >>> 8, v &&& 0xff])) u) := by
  have hlo : v &&& 0xff < 256 := lt_of_le_of_lt Nat.and_le_right (by norm_num)
  have hhi : v >>> 8 < 256 := by
    rw [Nat.shiftRight_eq_div_pow]
    omega
  by_cases h2 : mode2 = 0
  · have e1 : stackPush sel (v &&& 0xff) u = .ok ((), setStk sel (stkOf sel u ++ [v &&& 0xff]) u) :=
      stackPush_ok _ _ _ (by omega) hlo
    simp only [pushWide, h2, ne_eq, not_true_eq_false, if_false, ite_true,
      M_bind_eq, M_pure_eq, e1]
  · have e1 : stackPush sel (v >>> 8) u = .ok ((), setStk sel (stkOf sel u ++ [v >>> 8]) u) :=
      stackPush_ok _ _ _ (by omega) hhi
    have e2 := stackPush_ok sel (setStk sel (stkOf sel u ++ [v >>> 8]) u) (v &&& 0xff)
      (by simp; omega) hlo
    rw [stkOf_setStk_same] at e2
    simp only [pushWide, ne_eq, h2, not_false_eq_true, if_true, ite_false,
      M_bind_eq, M_pure_eq, e1, e2, setStk_setStk, List.append_assoc, List.cons_append,
      List.nil_append, if_neg h2]

theorem readPair_pop_byte (sel : StackSel) (u : Uxn) (l : List Nat) (t n : Nat)
    (h : stkOf sel u = l ++ [n, t]) :
    readPair sel 0 0 u = .ok ((t, n), setStk sel l u) := by
  have h1 : stkOf sel u = (l ++ [n]) ++ [t] := by rw [h]; simp
  have e1 : stackPop sel u = .ok (t, setStk sel (l ++ [n]) u) :=
    stackPop_concat sel u (l ++ [n]) t h1
  have e2 : stackPop sel (setStk sel (l ++ [n]) u)
      = .ok (n, setStk sel l (setStk sel (l ++ [n]) u)) :=
    stackPop_concat _ _ _ _ (by simp)
  simp only [readPair, if_neg (by norm_num : ¬ ((0 : Nat) ≠ 0)),
    M_bind_eq, e1, e2, M_pure_eq, setStk_setStk]

theorem readPair_pop_short (sel : StackSel) (u : Uxn) (l : List Nat) (t n : Nat)
    (h : stkOf sel u = l ++ [n / 256, n % 256, t / 256, t % 256]) :
    readPair sel 1 0 u = .ok ((t, n), setStk sel l u) := by
  have h1 : stkOf sel u = (l ++ [n / 256, n % 256]) ++ [t / 256, t % 256] := by rw [h]; simp
  have e1 : ushort_pop sel u
      = .ok (t / 256 * 256 + t % 256, setStk sel (l ++ [n / 256, n % 256]) u) :=
    ushort_pop_concat sel u _ _ _ h1
  have e2 : ushort_pop sel (setStk sel (l ++ [n / 256, n % 256]) u)
      = .ok (n / 256 * 256 + n % 256, setStk sel l (setStk sel (l ++ [n / 256, n % 256]) u)) :=
    ushort_pop_concat _ _ _ _ _ (by simp)
  simp only [readPair, if_neg (by norm_num : ¬ ((0 : Nat) ≠ 0)),
    if_pos (by norm_num : (1 : Nat) ≠ 0), M_bind_eq, e1, e2, M_pure_eq, setStk_setStk,
    show t / 256 * 256 + t % 256 = t by omega, show n / 256 * 256 + n % 256 = n by omega]

theorem readPair_keep_byte (sel : StackSel) (u : Uxn) (l : List Nat) (t n : Nat)
    (h : stkOf sel u = l ++ [n, t]) :
    readPair sel 0 1 u = .ok ((t, n), u) := by
  have h1 : stkOf sel u = (l ++ [n]) ++ [t] := by rw [h]; simp
  simp only [readPair, if_pos (by norm_num : (1 : Nat) ≠ 0),
    if_neg (by norm_num : ¬ ((0 : Nat) ≠ 0)), M_bind_eq, getU, h1, liftE,
    pyIndex_neg1_assoc, pyIndex_neg2_assoc, M_pure_eq]

theorem readPair_keep_short (sel : StackSel) (u : Uxn) (l : List Nat) (t n : Nat)
    (h : stkOf sel u = l ++ [n / 256, n % 256, t / 256, t % 256]) :
    readPair sel 1 1 u = .ok ((t, n), u) := by
  have h1 : stkOf sel u = (l ++ [n / 256, n % 256]) ++ [t / 256, t % 256] := by rw [h]; simp
  simp only [readPair, if_pos (by norm_num : (1 : Nat) ≠ 0), M_bind_eq, getU, h1, liftE,
    ushort_peek_last2, ushort_peek_last4_assoc, M_pure_eq,
    show t / 256 * 256 + t % 256 = t by omega, show n / 256 * 256 + n % 256 = n by omega]

/-! Claim theorems. -/

/-- Claim C8: for every pair of operands and every mode combination
(including keep mode), GTH pushes the single byte 1 if N is greater than T
under unsigned comparison and 0 otherwise, and LTH pushes 1 if N is less
than T and 0 otherwise; the comparison direction is the same in keep and
non-keep mode. The operands sit on the primary stack above `rest`, encoded
big-endian when `mode2 = 1`; in keep mode the operands stay and the flag
byte lands on top of them. -/
theorem gth_lth_unsigned_all_modes (mode2 moder modek t n : Nat) (rest : List Nat) (u : Uxn)
    (h2 : mode2 ≤ 1) (hk : modek ≤ 1) (hrest : rest.length ≤ 251)
    (hs : stkOf (primarySel moder) u =
      rest ++ (if mode2 = 0 then [n, t] else [n / 256, n % 256, t / 256, t % 256])) :
    op_gth mode2 moder modek u = .ok (false,
      setStk (primarySel moder)
        ((if modek = 0 then rest else stkOf (primarySel moder) u) ++ [if t < n then 1 else 0]) u)
    ∧ op_lth mode2 moder modek u = .ok (false,
      setStk (primarySel moder)
        ((if modek = 0 then rest else stkOf (primarySel moder) u) ++ [if n < t then 1 else 0]) u) := by
  have hlen : (stkOf (primarySel moder) u).length < 256 := by
    rw [hs]
    simp only [List.length_append]
    split <;> simp <;> omega
  interval_cases mode2 <;> interval_cases modek
  · norm_num at hs
    have e1 := readPair_pop_byte (primarySel moder) u rest t n hs
    have pg := stackPush_ok (primarySel moder) (setStk (primarySel moder) rest u)
      (if t < n then 1 else 0) (by simp; omega) (by split <;> norm_num)
    rw [stkOf_setStk_same] at pg
    have pl := stackPush_ok (primarySel moder) (setStk (primarySel moder) rest u)
      (if n < t then 1 else 0) (by simp; omega) (by split <;> norm_num)
    rw [stkOf_setStk_same] at pl
    constructor
    · simp only [op_gth, M_bind_eq, e1, pg, M_pure_eq, setStk_setStk]
      norm_num
    · simp only [op_lth, M_bind_eq, e1, pl, M_pure_eq, setStk_setStk]
      norm_num
  · norm_num at hs
    have e1 := readPair_keep_byte (primarySel moder) u rest t n hs
    have pg := stackPush_ok (primarySel moder) u (if t < n then 1 else 0)
      hlen (by split <;> norm_num)
    have pl := stackPush_ok (primarySel moder) u (if n < t then 1 else 0)
      hlen (by split <;> norm_num)
    constructor
    · simp only [op_gth, M_bind_eq, e1, pg, M_pure_eq]
      norm_num
    · simp only [op_lth, M_bind_eq, e1, pl, M_pure_eq]
      norm_num
  · norm_num at hs
    have e1 := readPair_pop_short (primarySel moder) u rest t n hs
    have pg := stackPush_ok (primarySel moder) (setStk (primarySel moder) rest u)
      (if t < n then 1 else 0) (by simp; omega) (by split <;> norm_num)
    rw [stkOf_setStk_same] at pg
    have pl := stackPush_ok (primarySel moder) (setStk (primarySel moder) rest u)
      (if n < t then 1 else 0) (by simp; omega) (by split <;> norm_num)
    rw [stkOf_setStk_same] at pl
    constructor
    · simp only [op_gth, M_bind_eq, e1, pg, M_pure_eq, setStk_setStk]
      norm_num
    · simp only [op_lth, M_bind_eq, e1, pl, M_pure_eq, setStk_setStk]
      norm_num
  · norm_num at hs
    have e1 := readPair_keep_short (primarySel moder) u rest t n hs
    have pg := stackPush_ok (primarySel moder) u (if t < n then 1 else 0)
      hlen (by split <;> norm_num)
    have pl := stackPush_ok (primarySel moder) u (if n < t then 1 else 0)
      hlen (by split <;> norm_num)
    constructor
    · simp only [op_gth, M_bind_eq, e1, pg, M_pure_eq]
      norm_num
    · simp only [op_lth, M_bind_eq, e1, pl, M_pure_eq]
      norm_num

/-- Witness for C8: `09 05 GTH` pushes 1 and `09 05 LTH` pushes 0. -/
theorem gth_lth_unsigned_all_modes_witness :
    op_gth 0 0 0 { pc := 0, mem := [], dev := [], ws := [9, 5], rs := [], out := [] }
      = .ok (false, { pc := 0, mem := [], dev := [], ws := [1], rs := [], out := [] })
    ∧ op_lth 0 0 0 { pc := 0, mem := [], dev := [], ws := [9, 5], rs := [], out := [] }
      = .ok (false, { pc := 0, mem := [], dev := [], ws := [0], rs := [], out := [] }) := by
  have h := gth_lth_unsigned_all_modes 0 0 0 5 9 []
    { pc := 0, mem := [], dev := [], ws := [9, 5], rs := [], out := [] }
    (by norm_num) (by norm_num) (by norm_num) (by decide)
  simpa [primarySel, setStk] using h

/-- Claim C9: for every dividend N and divisor T, DIV pushes the truncated
quotient N/T when T is non-zero and pushes 0 when T is zero, in every mode
combination, and never raises an error. -/
theorem div_pushes_quotient_or_zero (mode2 moder modek t n : Nat) (rest : List Nat) (u : Uxn)
    (h2 : mode2 ≤ 1) (hk : modek ≤ 1) (hrest : rest.length ≤ 250)
    (ht : t < (if mode2 = 0 then 256 else 65536)) (hn : n < (if mode2 = 0 then 256 else 65536))
    (hs : stkOf (primarySel moder) u =
      rest ++ (if mode2 = 0 then [n, t] else [n / 256, n % 256, t / 256, t % 256])) :
    op_div mode2 moder modek u = .ok (false,
      setStk (primarySel moder)
        ((if modek = 0 then rest else stkOf (primarySel moder) u) ++
          (if mode2 = 0 then [if t = 0 then 0 else n / t]
           else [(if t = 0 then 0 else n / t) / 256, (if t = 0 then 0 else n / t) % 256])) u) := by
  have hlen : (stkOf (primarySel moder) u).length < 256 := by
    rw [hs]
    simp only [List.length_append]
    split <;> simp <;> omega
  have hq : (if t ≠ 0 then (n / t) &&& 0xffff else 0) = (if t = 0 then 0 else n / t) := by
    by_cases h0 : t = 0
    · simp [h0]
    · simp only [h0, ne_eq, not_false_eq_true, if_true, if_false, ite_true, ite_false,
        if_neg h0, if_pos h0]
      rw [show (65535 : Nat) = 2 ^ 16 - 1 by norm_num, Nat.and_pow_two_sub_one_eq_mod]
      have hnb : n < 65536 := by split at hn <;> omega
      exact Nat.mod_eq_of_lt (by
        calc n / t ≤ n := Nat.div_le_self n t
        _ < 65536 := hnb)
  have hqlt : (if t = 0 then 0 else n / t) < 65536 := by
    have hnb : n < 65536 := by split at hn <;> omega
    split
    · omega
    · calc n / t ≤ n := Nat.div_le_self n t
      _ < 65536 := hnb
  interval_cases mode2 <;> interval_cases modek
  · norm_num at hs ht hn
    have e1 := readPair_pop_byte (primarySel moder) u rest t n hs
    have pw := pushWide_run (primarySel moder) 0 (if t = 0 then 0 else n / t)
      (setStk (primarySel moder) rest u) (by simp; omega) hqlt
    rw [stkOf_setStk_same] at pw
    simp only [op_div, M_bind_eq, e1, hq, pw, M_pure_eq, setStk_setStk]
    norm_num
    rw [show (255 : Nat) = 2 ^ 8 - 1 by norm_num, Nat.and_pow_two_sub_one_eq_mod]
    rw [Nat.mod_eq_of_lt (by split <;> [omega; calc n / t ≤ n := Nat.div_le_self n t
      _ < 256 := hn])]
  · norm_num at hs ht hn
    have e1 := readPair_keep_byte (primarySel moder) u rest t n hs
    have pw := pushWide_run (primarySel moder) 0 (if t = 0 then 0 else n / t) u
      (by rw [hs]; simp; omega) hqlt
    simp only [op_div, M_bind_eq, e1, hq, pw, M_pure_eq]
    norm_num
    rw [show (255 : Nat) = 2 ^ 8 - 1 by norm_num, Nat.and_pow_two_sub_one_eq_mod]
    rw [Nat.mod_eq_of_lt (by split <;> [omega; calc n / t ≤ n := Nat.div_le_self n t
      _ < 256 := hn])]
  · norm_num at hs ht hn
    have e1 := readPair_pop_short (primarySel moder) u rest t n hs
    have pw := pushWide_run (primarySel moder) 1 (if t = 0 then 0 else n / t)
      (setStk (primarySel moder) rest u) (by simp; omega) hqlt
    rw [stkOf_setStk_same] at pw
    simp only [op_div, M_bind_eq, e1, hq, pw, M_pure_eq, setStk_setStk]
    norm_num
    rw [Nat.shiftRight_eq_div_pow,
      show (255 : Nat) = 2 ^ 8 - 1 by norm_num, Nat.and_pow_two_sub_one_eq_mod]
  · norm_num at hs ht hn
    have e1 := readPair_keep_short (primarySel moder) u rest t n hs
    have pw := pushWide_run (primarySel moder) 1 (if t = 0 then 0 else n / t) u
      (by rw [hs]; simp; omega) hqlt
    simp only [op_div, M_bind_eq, e1, hq, pw, M_pure_eq]
    norm_num
    rw [Nat.shiftRight_eq_div_pow,
      show (255 : Nat) = 2 ^ 8 - 1 by norm_num, Nat.and_pow_two_sub_one_eq_mod]

/-- Witness for C9: `0a 00 DIV` (division by zero) pushes 0 with no error. -/
theorem div_pushes_quotient_or_zero_witness :
    op_div 0 0 0 { pc := 0, mem := [], dev := [], ws := [10, 0], rs := [], out := [] }
      = .ok (false, { pc := 0, mem := [], dev := [], ws := [0], rs := [], out := [] }) := by
  have h := div_pushes_quotient_or_zero 0 0 0 0 10 []
    { pc := 0, mem := [], dev := [], ws := [10, 0], rs := [], out := [] }
    (by norm_num) (by norm_num) (by norm_num) (by norm_num) (by norm_num) (by decide)
  simpa [primarySel, setStk] using h

@[simp]
theorem mem_setStk (sel : StackSel) (l : List Nat) (u : Uxn) : (setStk sel l u).mem = u.mem := by
  cases sel <;> rfl

@[simp]
theorem pc_setStk (sel : StackSel) (l : List Nat) (u : Uxn) : (setStk sel l u).pc = u.pc := by
  cases sel <;> rfl

/-- Claim C10: a pop that underflows partway through a multi-operand
instruction (here SWP, opcode byte 0x04, with a single byte on the working
stack) propagates the exception out of `run_vector` and leaves the machine
partially mutated: the byte already popped by the same instruction is not
restored and the program counter has already advanced past the opcode byte. -/
theorem swp_underflow_partial_mutation (u : Uxn) (pc : Int) (b : Nat) (fuel : Nat)
    (hfetch : pyIndex u.mem pc = .ok 4) (hws : u.ws = [b]) :
    run_vector (fuel + 1) u pc
      = .error (.indexError, { u with pc := pc + 1, ws := [] }) := by
  have hws0 : stkOf .wsSel { u with pc := pc + 1 } = [] ++ [b] := by
    simp [stkOf, hws]
  have e1 : stackPop .wsSel { u with pc := pc + 1 }
      = .ok (b, setStk .wsSel [] { u with pc := pc + 1 }) :=
    stackPop_concat _ _ [] b hws0
  have e2 : stackPop .wsSel (setStk .wsSel [] { u with pc := pc + 1 })
      = .error (.indexError, setStk .wsSel [] { u with pc := pc + 1 }) :=
    stackPop_nil _ _ (by simp)
  have erp : readPair .wsSel 0 0 { u with pc := pc + 1 }
      = .error (.indexError, setStk .wsSel [] { u with pc := pc + 1 }) := by
    simp only [readPair, if_neg (by norm_num : ¬ ((0 : Nat) ≠ 0)), M_bind_eq, e1, e2]
  have eswp : op_swp 0 0 0 { u with pc := pc + 1 }
      = .error (.indexError, { u with pc := pc + 1, ws := [] }) := by
    have hps : primarySel 0 = StackSel.wsSel := by norm_num [primarySel]
    simp only [op_swp, hps, M_bind_eq, erp]
    rfl
  have eexec : exec_op 4 { u with pc := pc }
      = .error (.indexError, { u with pc := pc + 1, ws := [] }) := by
    simp only [exec_op,
      show (4 : Nat) &&& 0x1f = 4 from by decide,
      show ((4 : Nat) >>> 5) &&& 1 = 0 from by decide,
      show ((4 : Nat) >>> 6) &&& 1 = 0 from by decide,
      show ((4 : Nat) >>> 7) &&& 1 = 0 from by decide,
      show OPS 4 = some op_swp from rfl]
    simp only [M_bind_eq, getU, liftE]
    simp only [show ({ u with pc := pc } : Uxn).mem = u.mem from rfl,
      show ({ u with pc := pc } : Uxn).pc = pc from rfl, hfetch]
    simp only [modU]
    exact eswp
  unfold run_vector
  unfold run_loop
  simp only [show ({ u with pc := pc } : Uxn).mem = u.mem from rfl,
    show ({ u with pc := pc } : Uxn).pc = pc from rfl, hfetch]
  simp only [eexec]

/-- Witness for C10: a one-instruction ROM `04` (SWP) with working stack
`[77]` underflows; the error escapes `run_vector` with the stack emptied
and the program counter at 1. -/
theorem swp_underflow_partial_mutation_witness :
    run_vector 1 { pc := 0, mem := [4], dev := [], ws := [77], rs := [], out := [] } 0
      = .error (.indexError,
          { pc := 1, mem := [4], dev := [], ws := [], rs := [], out := [] }) := by
  have h := swp_underflow_partial_mutation
    { pc := 0, mem := [4], dev := [], ws := [77], rs := [], out := [] } 0 77 0 (by decide) rfl
  exact h

/-- Claim C1 (evaluation at the failing input): loading the one-byte ROM
`[1]` into a fresh VM leaves a memory of 65,537 bytes, because the slice
assignment in `load_image` inserts rather than overwrites; the length guard
itself does reject a ROM longer than 0xFF00 bytes before execution. -/
theorem load_image_grows_memory :
    (load_image Uxn.init [1]).map (fun u => u.mem.length) = .ok 65537
    ∧ load_image Uxn.init (List.replicate 0xFF01 0) = .error .valueError := by
  have hmem0 : Uxn.init.mem = List.replicate 65536 0 := rfl
  have hlen0 : Uxn.init.mem.length = 65536 := by rw [hmem0, List.length_replicate]
  constructor
  · have hload : load_image Uxn.init [1]
        = .ok { Uxn.init with
                mem := pySetSlice Uxn.init.mem 0x100 (([1] : List Nat).length : Int) [1] } := by
      simp only [load_image]
      rw [if_neg (by rw [hlen0]; norm_num)]
    rw [hload]
    have hset : (pySetSlice Uxn.init.mem 0x100 (([1] : List Nat).length : Int) [1]).length
        = 65537 := by
      rw [hmem0]
      simp only [pySetSlice, List.length_append, List.length_take, List.length_drop,
        List.length_replicate, List.length_cons, List.length_nil]
      norm_num
      rw [show pyClamp 65536 (0x100 : Int) = 256 from by decide,
        show pyClamp 65536 (1 : Int) = 1 from by decide]
      omega
    simp only [Except.map]
    rw [hset]
  · simp only [load_image]
    rw [if_pos (by rw [hlen0]; simp only [List.length_replicate]; norm_num)]

/-- Claim C2 (evaluation at the failing input): `op_inc` ignores keep mode
and consumes its operand: `INCk` on a working stack holding the single byte
5 yields the one-byte stack `[6]`, with the source stack pointer unchanged
instead of grown by the pushed byte. -/
theorem inc_keep_consumes_operand :
    op_inc 0 0 1 { pc := 0, mem := [], dev := [], ws := [5], rs := [], out := [] }
      = .ok (false, { pc := 0, mem := [], dev := [], ws := [6], rs := [], out := [] }) := by
  decide

/-- Claim C3 (evaluation at the failing input): no address masking exists.
A 16-bit LDA at address 0xFFFF reads `mem[0xFFFF]` and then raises
`IndexError` on `mem[0x10000]` instead of wrapping to 0x0000, with the two
address bytes already popped and the first loaded byte already pushed; and
`run_vector` with a program counter of 0x10000 raises `IndexError` at the
fetch instead of wrapping to 0. -/
theorem lda_unmasked_address_raises (u : Uxn) (hmem : u.mem.length = 65536)
    (hws : u.ws = [255, 255]) (hbyte : u.mem.getD 65535 0 < 256) :
    op_lda 1 0 0 u = .error (.indexError, { u with ws := [u.mem.getD 65535 0] })
    ∧ run_vector 1 u 65536 = .error (.indexError, { u with pc := 65536 }) := by
  have hidx1 : pyIndex u.mem 65535 = .ok (u.mem.getD 65535 0) := by
    simp only [pyIndex]
    simp only [if_neg (show ¬ ((65535 : Int) < 0) by norm_num)]
    rw [if_pos (show (0 : Int) ≤ 65535 ∧ (65535 : Int) < (u.mem.length : Int) by
      rw [hmem]; norm_num)]
    rfl
  have hidx2 : pyIndex u.mem 65536 = .error .indexError := by
    simp only [pyIndex]
    simp only [if_neg (show ¬ ((65536 : Int) < 0) by norm_num)]
    rw [if_neg (show ¬ ((0 : Int) ≤ 65536 ∧ (65536 : Int) < (u.mem.length : Int)) by
      rw [hmem]; norm_num)]
  constructor
  · have hps : primarySel 0 = StackSel.wsSel := by norm_num [primarySel]
    have hws0 : stkOf .wsSel u = [255] ++ [255] := by simp [stkOf, hws]
    have e1 : stackPop .wsSel u = .ok (255, setStk .wsSel [255] u) :=
      stackPop_concat _ _ [255] 255 hws0
    have e2 : stackPop .wsSel (setStk .wsSel [255] u)
        = .ok (255, setStk .wsSel [] u) := by
      have h := stackPop_concat .wsSel (setStk .wsSel [255] u) [] 255 (by simp)
      simpa using h
    have em1 : memGet 65535 (setStk .wsSel [] u)
        = .ok (u.mem.getD 65535 0, setStk .wsSel [] u) := by
      simp only [memGet, mem_setStk, hidx1]
    have ep1 : stackPush .wsSel (u.mem.getD 65535 0) (setStk .wsSel [] u)
        = .ok ((), setStk .wsSel [u.mem.getD 65535 0] u) := by
      have h := stackPush_ok .wsSel (setStk .wsSel [] u) (u.mem.getD 65535 0)
        (by simp) hbyte
      simpa using h
    have em2 : memGet 65536 (setStk .wsSel [u.mem.getD 65535 0] u)
        = .error (.indexError, setStk .wsSel [u.mem.getD 65535 0] u) := by
      simp only [memGet, mem_setStk, hidx2]
    simp only [op_lda, hps, if_neg (by norm_num : ¬ ((0 : Nat) ≠ 0)),
      if_pos (by norm_num : (1 : Nat) ≠ 0), M_bind_eq, M_pure_eq, e1, e2]
    simp only [show (255 : Nat) + 255 <<< 8 = 65535 from by decide,
      show ((65535 : Nat) : Int) = (65535 : Int) from by norm_num,
      show (65535 : Int) + 1 = (65536 : Int) from by norm_num]
    simp only [em1, ep1, em2]
    rfl
  · unfold run_vector
    unfold run_loop
    simp only [show ({ u with pc := (65536 : Int) } : Uxn).mem = u.mem from rfl,
      show ({ u with pc := (65536 : Int) } : Uxn).pc = (65536 : Int) from rfl, hidx2]

theorem getD_replicate_zero (k i : Nat) : (List.replicate k (0 : Nat)).getD i 0 = 0 := by
  rw [List.getD_eq_getElem?_getD, List.getElem?_replicate]
  split <;> rfl

/-- Witness for C3: the failure on a freshly constructed VM whose working
stack holds the address bytes ff ff. -/
theorem lda_unmasked_address_raises_witness :
    op_lda 1 0 0 { Uxn.init with ws := [255, 255] }
      = .error (.indexError, { Uxn.init with ws := [0] })
    ∧ run_vector 1 { Uxn.init with ws := [255, 255] } 65536
      = .error (.indexError, { Uxn.init with ws := [255, 255], pc := 65536 }) := by
  have hm : ({ Uxn.init with ws := [255, 255] } : Uxn).mem = List.replicate 65536 0 := rfl
  have h := lda_unmasked_address_raises { Uxn.init with ws := [255, 255] }
    (by rw [hm, List.length_replicate]) rfl (by rw [hm, getD_replicate_zero]; norm_num)
  rw [hm, getD_replicate_zero] at h
  exact h

/-- Claim C4 (evaluation at the failing input): `op_lit` and `op_jsr` push
through `bytearray.extend`, which bypasses the capacity assert of
`FixedSizeStack.push`: a LIT with 256 bytes already on the working stack
succeeds and leaves 257 bytes, and a JSR2 with 256 bytes on the return
stack succeeds and leaves 258 bytes, with no overflow error. -/
theorem lit_jsr_bypass_capacity_assert :
    (op_lit 0 0 1 { pc := 0, mem := [0x42, 0], dev := [], ws := List.replicate 256 7,
                    rs := [], out := [] }).map (fun p => p.2.ws.length)
      = .ok 257
    ∧ (op_jsr 1 0 0 { pc := 0, mem := [], dev := [], ws := [0, 0],
                      rs := List.replicate 256 9, out := [] }).map (fun p => p.2.rs.length)
      = .ok 258 := by
  constructor
  · decide
  · decide

/-- Claim C5 (evaluation at the failing input): `op_deo` never stores the
written byte into the device page; a DEO to System port 0x00 raises
`ValueError` instead of being stored silently, and even the supported
Console write (port 0x18) leaves the device page untouched. -/
theorem deo_no_device_page_store_and_errors :
    op_deo 0 0 0 { pc := 0, mem := [], dev := List.replicate 256 0, ws := [0x41, 0],
                   rs := [], out := [] }
      = .error (.valueError, { pc := 0, mem := [], dev := List.replicate 256 0, ws := [],
                               rs := [], out := [] })
    ∧ (op_deo 0 0 0 { pc := 0, mem := [], dev := List.replicate 256 0, ws := [0x41, 0x18],
                      rs := [], out := [] }).map (fun p => p.2.dev.getD 0x18 0)
      = .ok 0 := by
  constructor
  · decide
  · decide

/-- Claim C6 (evaluation at the failing input): base opcode 0x16 (DEI) is
absent from the `OPS` table, so executing it raises `KeyError` before the
program counter moves, instead of reading the device page. -/
theorem dei_missing_raises_keyerror :
    exec_op 0x16 { pc := 0, mem := [0x16], dev := [], ws := [1], rs := [], out := [] }
      = .error (.keyError 0x16,
          { pc := 0, mem := [0x16], dev := [], ws := [1], rs := [], out := [] }) := by
  decide

/-- Claim C7 (evaluation at the failing input): in keep mode with mode2,
`op_sft` peeks the value two bytes too deep (`len-4` instead of `len-3`).
On the stack 12 34 56 00, SFT2k pushes 12 34 (the value read at `sp-4`),
while the consuming SFT2 on the same stack pushes 34 56 — the operands of
the keep form are not the operands of the consuming form. -/
theorem sft2k_reads_value_at_wrong_depth :
    op_sft 1 0 1 { pc := 0, mem := [], dev := [], ws := [0x12, 0x34, 0x56, 0x00],
                   rs := [], out := [] }
      = .ok (false, { pc := 0, mem := [], dev := [], ws := [0x12, 0x34, 0x56, 0x00, 0x12, 0x34],
                      rs := [], out := [] })
    ∧ op_sft 1 0 0 { pc := 0, mem := [], dev := [], ws := [0x12, 0x34, 0x56, 0x00],
                     rs := [], out := [] }
      = .ok (false, { pc := 0, mem := [], dev := [], ws := [0x12, 0x34, 0x56],
                      rs := [], out := [] }) := by
  constructor
  · decide
  · decide

end PyUxn
